import Mathlib

/-!
Shallow embedding of the event-listing pipeline of the
obsidian-google-calendar plugin (GoogleListEvents.ts).

Modelling conventions:

* A point in time is a pair of a calendar-day index and a minute of the day
  (structure DT).  The moment operations used by the source (startOf day,
  endOf day, diff in days, add days, comparison at day granularity,
  formatting to a day string) are expressed on these pairs.  Day n stands
  for the n-th calendar day after some fixed epoch day.
* The remote transport (callRequest) is an external collaborator; per its
  interface description a failing request surfaces as an absent result,
  not a thrown value.  One fetch session is given as the list of
  successive transport responses, each either some page or none.
* The process-wide cachedEvents Map is an association list written by
  prepending and read through cacheGet (first match wins, so a set
  overwrites earlier entries for the same key).
* A JS exception escaping a function is modelled by the first component
  of its result being none (a rejected promise); notices created via
  createNotice are collected in a list.
-/

/-- A date-time: calendar-day index and minute of the day. -/
structure DT where
  day : Nat
  minute : Nat
deriving DecidableEq, Repr

/-- The start/end field of a Google event: either an all-day date or a
date-time, mirroring the `date`/`dateTime` fields of the API type. -/
structure EventTime where
  date : Option Nat
  dateTime : Option DT
deriving DecidableEq, Repr

/-- A Google calendar event, restricted to the fields the pipeline reads
or writes.  colorName stands for the externally resolved value of
getColorNameFromEvent on this event. -/
structure GoogleEvent where
  summary : String
  status : String
  start : EventTime
  end_ : EventTime
  eventType : Option String
  colorName : String
  parent : Option String
deriving DecidableEq, Repr

/-- A Google calendar (id and display summary). -/
structure GoogleCalendar where
  id : String
  summary : String
deriving DecidableEq, Repr

/-- One response page of the events endpoint. -/
structure GoogleEventList where
  items : List GoogleEvent
  nextPageToken : Option String
deriving DecidableEq, Repr

/-- A cache entry: the events of one (day, calendar) bucket and the time
the bucket was written. -/
structure EventCacheValue where
  events : List GoogleEvent
  updated : Nat
deriving DecidableEq, Repr

/-- The plugin settings fields the pipeline touches. -/
structure PluginSettings where
  refreshInterval : Nat
  useCustomClient : Bool
  googleApiToken : String
  calendarBlackList : List String
deriving DecidableEq, Repr

/-- Cache keys: the JSON key built from the day string and calendar id. -/
abbrev CacheKey := Nat × String

/-- The cachedEvents map, as an association list. -/
abbrev EventCache := List (CacheKey × EventCacheValue)

/-- Read a cache key; the first (most recently written) match wins. -/
def cacheGet : EventCache → CacheKey → Option EventCacheValue
  | [], _ => none
  | (k2, v) :: rest, k => if k2 = k then some v else cacheGet rest k

/-- Write a cache key (Map.set): overwrite by prepending. -/
def cacheSet (c : EventCache) (k : CacheKey) (v : EventCacheValue) : EventCache :=
  (k, v) :: c

/-- The mutable process state threaded through the pipeline: plugin
settings, the cachedEvents map, the current time (in seconds for cache
ages) and the notices shown so far. -/
structure PState where
  settings : PluginSettings
  cache : EventCache
  now : Nat
  notices : List String
deriving DecidableEq, Repr

/-- The inclusive list of day indices from startDay to endDay, ascending:
the days visited by the while loops over currentDate. -/
def daysRange (startDay endDay : Nat) : List Nat :=
  (List.range (endDay + 1 - startDay)).map (fun i => startDay + i)

/-- The settings mutation inside checkForCachedEvents: a shared client
with a refresh interval under 60 seconds has the interval raised to 60. -/
def clampInterval (s : PluginSettings) : PluginSettings :=
  if s.useCustomClient = false ∧ s.refreshInterval < 60 then
    { s with refreshInterval := 60 }
  else s

/-- The refresh interval actually used by the staleness test: the
configured one, after the clamp of clampInterval has been applied. -/
def effectiveInterval (s : PluginSettings) : Nat :=
  if s.useCustomClient = false ∧ s.refreshInterval < 60 then 60
  else s.refreshInterval

/-- The loop body of checkForCachedEvents: walk the days, fail on a
missing or stale entry, otherwise concatenate the buckets.  The
refresh-interval clamp of the source mutates the settings, which are
threaded and returned. -/
def checkLoop (cache : EventCache) (calId : String) (now : Nat) :
    List Nat → PluginSettings → List GoogleEvent →
    Option (List GoogleEvent) × PluginSettings
  | [], s, acc => (some acc, s)
  | d :: rest, s, acc =>
    match cacheGet cache (d, calId) with
    | none => (none, s)
    | some entry =>
      let s2 := clampInterval s
      if entry.updated + s2.refreshInterval < now then (none, s2)
      else checkLoop cache calId now rest s2 (acc ++ entry.events)

/-- checkForCachedEvents: returns the concatenated cached buckets for the
inclusive day range, or none on any missing or stale day; also returns
the (possibly clamped) settings. -/
def checkForCachedEvents (s : PluginSettings) (cache : EventCache)
    (calId : String) (startDay endDay : Nat) (now : Nat) :
    Option (List GoogleEvent) × PluginSettings :=
  checkLoop cache calId now (daysRange startDay endDay) s []

/-- The pagination loop of requestEventsFromApi over the successive
transport responses.  A none response raises the notice and then, via
continue, evaluates the loop condition on the absent result: the thrown
TypeError is modelled as a none result.  A full page (2500 items)
continues the loop, a shorter page ends it. -/
def requestLoop (calId : String) :
    List (Option GoogleEventList) → List GoogleEvent → List String →
    Option (List GoogleEvent) × List String
  | [], acc, ns => (some acc, ns)
  | none :: _, _, ns => (none, ns ++ ["Could not list Google Events"])
  | some page :: rest, acc, ns =>
    let newList := (page.items.filter (fun e => e.status != "cancelled")).map
      (fun e => { e with parent := some calId })
    let acc2 := acc ++ newList
    if page.items.length = 2500 then requestLoop calId rest acc2 ns
    else (some acc2, ns)

/-- requestEventsFromApi: empty result when not logged in, otherwise the
pagination loop. -/
def requestEventsFromApi (loggedIn : Bool) (calId : String)
    (pages : List (Option GoogleEventList)) :
    Option (List GoogleEvent) × List String :=
  if loggedIn then requestLoop calId pages [] [] else (some [], [])

/-- Whether resolveMultiDayEventsHelper treats an event as multi-day:
both endpoints are date-times and they fall on different days. -/
def isMultiDayCandidate (e : GoogleEvent) : Bool :=
  match e.start.dateTime, e.end_.dateTime with
  | some s, some en => s.day != en.day
  | _, _ => false

/-- The clones pushed by the do-while of resolveMultiDayEventsHelper,
before the range filter.  The i-th clone (i from 0) carries the label
(Day i+1/total); the first keeps the original start, the later ones start
at minute 0 of the following days because the diff computation already
moved startMoment to the start of its day.  totalDays is kept as an
integer, as the moment diff can be negative for a reversed event. -/
def cloneList (e : GoogleEvent) : List GoogleEvent :=
  match e.start.dateTime, e.end_.dateTime with
  | some s, some en =>
    let numClones := en.day - s.day + 1
    let totalDays : Int := (en.day : Int) - (s.day : Int) + 1
    (List.range numClones).map (fun i =>
      { e with
        summary := e.summary ++ " (Day " ++ toString (i + 1) ++ "/" ++
          toString totalDays ++ ")"
        eventType := some "multiDay"
        start := if i = 0 then e.start
          else { e.start with dateTime := some ⟨s.day + i, 0⟩ } })
  | _, _ => []

/-- The in-place mutations left on a multi-day original when the do-while
has finished: the delete tag, the last day label, and the start moved to
minute 0 of the day after the last generated day. -/
def supersededOriginal (e : GoogleEvent) : GoogleEvent :=
  match e.start.dateTime, e.end_.dateTime with
  | some s, some en =>
    let numClones := en.day - s.day + 1
    let totalDays : Int := (en.day : Int) - (s.day : Int) + 1
    { e with
      summary := e.summary ++ " (Day " ++ toString numClones ++ "/" ++
        toString totalDays ++ ")"
      eventType := some "delete"
      start := { e.start with dateTime := some ⟨s.day + numClones, 0⟩ } }
  | _, _ => e

/-- The range filter applied to the generated clones: drop a clone whose
start day is before the range start day or not before the range end day. -/
def rangeKeep (dStart dEnd : Option Nat) (ev : GoogleEvent) : Bool :=
  match ev.start.dateTime with
  | some sd =>
    (match dStart with | some d => decide (d ≤ sd.day) | none => true) &&
    (match dEnd with | some d => decide (sd.day < d) | none => true)
  | none => true

/-- resolveMultiDayEventsHelper: every multi-day original is mutated in
place into its superseded form, and the range-filtered clones of all
events are appended at the end of the list. -/
def resolveMultiDayEventsHelper (l : List GoogleEvent)
    (dStart dEnd : Option Nat) : List GoogleEvent :=
  (l.map (fun e => if isMultiDayCandidate e then supersededOriginal e else e)) ++
  (l.flatMap (fun e =>
    if isMultiDayCandidate e then (cloneList e).filter (rangeKeep dStart dEnd)
    else []))

/-- The day an event is grouped under for cache population:
start.dateTime first, else start.date (line 376 of the source). -/
def startDayKey (e : GoogleEvent) : Nat :=
  match e.start.dateTime with
  | some dt => dt.day
  | none =>
    match e.start.date with
    | some d => d
    | none => 0

/-- Populate the cache: one bucket per day of the requested range,
holding the events of the expanded list grouped under that day. -/
def populateCache (cache : EventCache) (calId : String)
    (startDay endDay : Nat) (l : List GoogleEvent) (now : Nat) : EventCache :=
  (daysRange startDay endDay).foldl
    (fun c d => cacheSet c (d, calId) ⟨l.filter (fun e => startDayKey e == d), now⟩)
    cache

/-- The color part of the output filters: include wins over exclude. -/
def colorKeep (includeColors excludeColors : List String)
    (e : GoogleEvent) : Bool :=
  if 0 < includeColors.length then includeColors.contains e.colorName
  else if 0 < excludeColors.length then !(excludeColors.contains e.colorName)
  else true

/-- The output filter of the fresh-fetch path: drop delete-tagged events,
then apply the color filter. -/
def freshKeep (includeColors excludeColors : List String)
    (e : GoogleEvent) : Bool :=
  if e.eventType = some "delete" then false
  else colorKeep includeColors excludeColors e

/-- googleListEventsByCalendar: serve the color-filtered cache content on
a hit; otherwise fetch, expand multi-day events, populate the cache and
return the delete- and color-filtered expanded list.  A transport
failure propagates as none. -/
def googleListEventsByCalendar (loggedIn : Bool)
    (pages : List (Option GoogleEventList)) (cal : GoogleCalendar)
    (startDay endDay : Nat) (includeColors excludeColors : List String)
    (st : PState) : Option (List GoogleEvent) × PState :=
  let checked := checkForCachedEvents st.settings st.cache cal.id startDay endDay st.now
  let st2 := { st with settings := checked.2 }
  match checked.1 with
  | some evs => (some (evs.filter (colorKeep includeColors excludeColors)), st2)
  | none =>
    let fetched := requestEventsFromApi loggedIn cal.id pages
    match fetched.1 with
    | none => (none, { st2 with notices := st2.notices ++ fetched.2 })
    | some totalEventList =>
      let expanded := resolveMultiDayEventsHelper totalEventList
        (some startDay) (some endDay)
      let newCache := populateCache st2.cache cal.id startDay endDay expanded st2.now
      (some (expanded.filter (freshKeep includeColors excludeColors)),
        { st2 with cache := newCache, notices := st2.notices ++ fetched.2 })

/-- The per-calendar loop of googleListEvents, threading the state and
propagating an exception. -/
def listEventsLoop (loggedIn : Bool)
    (transport : String → List (Option GoogleEventList))
    (startDay endDay : Nat) (includeColors excludeColors : List String) :
    List GoogleCalendar → PState → List GoogleEvent →
    Option (List GoogleEvent) × PState
  | [], st, acc => (some acc, st)
  | cal :: rest, st, acc =>
    match googleListEventsByCalendar loggedIn (transport cal.id) cal
      startDay endDay includeColors excludeColors st with
    | (none, st2) => (none, st2)
    | (some evs, st2) =>
      listEventsLoop loggedIn transport startDay endDay includeColors
        excludeColors rest st2 (acc ++ evs)

/-- The sort key of the final orderBy: the start date if present, else
the start date-time (line 168 of the source); a date alone parses as
midnight of its day. -/
def sortKeyCode (e : GoogleEvent) : Nat :=
  match e.start.date with
  | some d => d * 1440
  | none =>
    match e.start.dateTime with
    | some dt => dt.day * 1440 + dt.minute
    | none => 0

/-- Stable insertion of an event into an already sorted list: the new
event goes after all events with a key not larger than its own. -/
def insertByKey (e : GoogleEvent) : List GoogleEvent → List GoogleEvent
  | [] => [e]
  | x :: xs =>
    if sortKeyCode x ≤ sortKeyCode e then x :: insertByKey e xs
    else e :: x :: xs

/-- The final ascending stable sort by start instant (lodash orderBy). -/
def sortByStart (l : List GoogleEvent) : List GoogleEvent :=
  l.foldl (fun acc e => insertByKey e acc) []

/-- Resolve the calendar set: a nonempty include list keeps only matching
calendars, else a nonempty exclude list drops matching calendars. -/
def selectCalendars (calendars : List GoogleCalendar)
    (includeCalendars excludeCalendars : List String) : List GoogleCalendar :=
  if includeCalendars ≠ [] then
    calendars.filter (fun c =>
      includeCalendars.contains c.id || includeCalendars.contains c.summary)
  else if excludeCalendars ≠ [] then
    calendars.filter (fun c =>
      !(excludeCalendars.contains c.id || excludeCalendars.contains c.summary))
  else calendars

/-- googleListEvents: split the include/exclude tokens into calendar and
color parts, resolve the calendar set, collect the per-calendar results
and sort them by start instant.  calendars is the blacklist-filtered
directory answer, allColorNames the known color names, transport the
responses of the events endpoint per calendar id. -/
def googleListEvents (loggedIn : Bool) (calendars : List GoogleCalendar)
    (allColorNames : List String)
    (transport : String → List (Option GoogleEventList))
    (includeL excludeL : List String) (startDay endDay : Nat)
    (st : PState) : Option (List GoogleEvent) × PState :=
  let pIn := includeL.partition (fun x => !(allColorNames.contains x))
  let pEx := excludeL.partition (fun x => !(allColorNames.contains x))
  let selected := selectCalendars calendars pIn.1 pEx.1
  let r := listEventsLoop loggedIn transport startDay endDay pIn.2 pEx.2
    selected st []
  (r.1.map sortByStart, r.2)

/-- The freshness predicate of one cached day: the key is present and
the entry is not older than the effective freshness window. -/
def entryFresh (cache : EventCache) (calId : String) (now : Nat)
    (s : PluginSettings) (d : Nat) : Bool :=
  match cacheGet cache (d, calId) with
  | none => false
  | some entry => !(decide (entry.updated + effectiveInterval s < now))

/-- The events stored under one cached day (empty when absent). -/
def bucketEvents (cache : EventCache) (calId : String) (d : Nat) :
    List GoogleEvent :=
  match cacheGet cache (d, calId) with
  | none => []
  | some entry => entry.events

/-- No event of the list is cancelled. -/
def cleanEvents (l : List GoogleEvent) : Prop :=
  ∀ e ∈ l, e.status ≠ "cancelled"

/-- No reachable cache entry holds a cancelled event. -/
def cleanCache (c : EventCache) : Prop :=
  ∀ k v, cacheGet c k = some v → cleanEvents v.events

/-- The data-model invariant on a start field: when the all-day date is
populated the date-time is not (at most one of the two is set). -/
def startFieldsExclusive (e : GoogleEvent) : Prop :=
  e.start.date.isSome = true → e.start.dateTime.isSome = false

instance (e : GoogleEvent) : Decidable (startFieldsExclusive e) :=
  inferInstanceAs (Decidable
    (e.start.date.isSome = true → e.start.dateTime.isSome = false))

/-- The effective start instant of the contract: the date-time when
present, otherwise the all-day date read as midnight. -/
def effectiveStartKey (e : GoogleEvent) : Nat :=
  match e.start.dateTime with
  | some dt => dt.day * 1440 + dt.minute
  | none =>
    match e.start.date with
    | some d => d * 1440
    | none => 0

/-- A calendar used by the concrete scenarios. -/
def calOne : GoogleCalendar := ⟨"cal1", "Cal One"⟩

/-- A state with an empty cache: settings complete, shared client with a
60 second interval, clock at 1000. -/
def initialState : PState :=
  ⟨⟨60, false, "tok", []⟩, [], 1000, []⟩

/-- A two-day event: starts day 0 at 14:00, ends day 1 at 10:00. -/
def tripEvent : GoogleEvent :=
  { summary := "Trip", status := "confirmed",
    start := ⟨none, some ⟨0, 840⟩⟩, end_ := ⟨none, some ⟨1, 600⟩⟩,
    eventType := none, colorName := "blue", parent := none }

/-- A transport answering every fetch with one page holding tripEvent. -/
def tripTransport : String → List (Option GoogleEventList) :=
  fun _ => [some ⟨[tripEvent], none⟩]

/-- First listEvents call over days 0..4 against tripTransport. -/
def listCallOne : Option (List GoogleEvent) × PState :=
  googleListEvents true [calOne] [] tripTransport [] [] 0 4 initialState

/-- The identical second call, run on the state the first call left. -/
def listCallTwo : Option (List GoogleEvent) × PState :=
  googleListEvents true [calOne] [] tripTransport [] [] 0 4 listCallOne.2

/-- The event of the spec example: spans day 0 14:00 to day 2 10:00
(Jan-01 14:00 to Jan-03 10:00 with day 0 = 2024-01-01). -/
def retreatEvent : GoogleEvent :=
  { summary := "Retreat", status := "confirmed",
    start := ⟨none, some ⟨0, 840⟩⟩, end_ := ⟨none, some ⟨2, 600⟩⟩,
    eventType := none, colorName := "blue", parent := none }

/-- Transport for the spec example. -/
def retreatTransport : String → List (Option GoogleEventList) :=
  fun _ => [some ⟨[retreatEvent], none⟩]

/-- A four-day event: starts day 0 at 14:00, ends day 3 at 10:00. -/
def longEvent : GoogleEvent :=
  { summary := "Long", status := "confirmed",
    start := ⟨none, some ⟨0, 840⟩⟩, end_ := ⟨none, some ⟨3, 600⟩⟩,
    eventType := none, colorName := "blue", parent := none }

/-- Transport answering with the four-day event. -/
def longTransport : String → List (Option GoogleEventList) :=
  fun _ => [some ⟨[longEvent], none⟩]

/-- State after fetching days 0..1 of the four-day event. -/
def longAfter : PState :=
  (googleListEvents true [calOne] [] longTransport [] [] 0 1 initialState).2

/-- A cancelled event on day 0. -/
def cancelledEvent : GoogleEvent :=
  { summary := "Gone", status := "cancelled",
    start := ⟨none, some ⟨0, 60⟩⟩, end_ := ⟨none, some ⟨0, 120⟩⟩,
    eventType := none, colorName := "red", parent := none }

/-- A kept event on day 0. -/
def keptEvent : GoogleEvent :=
  { summary := "Kept", status := "confirmed",
    start := ⟨none, some ⟨0, 180⟩⟩, end_ := ⟨none, some ⟨0, 240⟩⟩,
    eventType := none, colorName := "blue", parent := none }

/-- Transport with a cancelled and a kept event on one page. -/
def mixedTransport : String → List (Option GoogleEventList) :=
  fun _ => [some ⟨[cancelledEvent, keptEvent], none⟩]

/-- Settings of a shared client below the interval floor. -/
def clampSettings : PluginSettings := ⟨30, false, "tok", []⟩

/-- A cache holding day 0 of calendar c, written at time 5. -/
def clampCache : EventCache := [((0, "c"), ⟨[], 5⟩)]

/-- A nonempty inclusive day range starts with its first day. -/
theorem daysRange_cons (sD eD : Nat) (h : sD ≤ eD) :
    daysRange sD eD = sD :: daysRange (sD + 1) eD := by
  unfold daysRange
  have h1 : eD + 1 - sD = (eD - sD) + 1 := by omega
  have h2 : eD + 1 - (sD + 1) = eD - sD := by omega
  rw [h1, h2, List.range_succ_eq_map, List.map_cons, List.map_map]
  have h3 : ((fun i => sD + i) ∘ Nat.succ) = (fun i => sD + 1 + i) := by
    funext i
    simp [Function.comp]
    omega
  rw [h3, Nat.add_zero]

/-- Membership in the inclusive day range. -/
theorem mem_daysRange (d sD eD : Nat) :
    d ∈ daysRange sD eD ↔ sD ≤ d ∧ d ≤ eD := by
  unfold daysRange
  simp only [List.mem_map, List.mem_range]
  constructor
  · rintro ⟨i, hi, rfl⟩
    omega
  · rintro ⟨h1, h2⟩
    exact ⟨d - sD, by omega, by omega⟩

/-- The clamped settings carry the effective interval. -/
theorem clampInterval_refreshInterval (s : PluginSettings) :
    (clampInterval s).refreshInterval = effectiveInterval s := by
  unfold clampInterval effectiveInterval
  split <;> rfl

/-- Clamping does not change the effective interval. -/
theorem effectiveInterval_clampInterval (s : PluginSettings) :
    effectiveInterval (clampInterval s) = effectiveInterval s := by
  unfold clampInterval effectiveInterval
  by_cases h : s.useCustomClient = false ∧ s.refreshInterval < 60
  · simp [h]
  · simp [h]

/-- A settings record whose interval equals the effective interval is
left unchanged by the clamp. -/
theorem clampInterval_eq_self (s : PluginSettings)
    (h : effectiveInterval s = s.refreshInterval) : clampInterval s = s := by
  unfold effectiveInterval at h
  unfold clampInterval
  split
  · rename_i hc
    rw [if_pos hc] at h
    omega
  · rfl

/-- The per-day freshness test only depends on the settings through the
effective interval. -/
theorem entryFresh_congr (cache : EventCache) (calId : String) (now : Nat)
    (s1 s2 : PluginSettings)
    (h : effectiveInterval s1 = effectiveInterval s2) :
    entryFresh cache calId now s1 = entryFresh cache calId now s2 := by
  funext d
  unfold entryFresh
  rw [h]

/-- The value the cache-check loop returns: all days present and fresh
gives the accumulator followed by the concatenated buckets, anything
else gives none. -/
theorem checkLoop_fst (cache : EventCache) (calId : String) (now : Nat) :
    ∀ (days : List Nat) (s : PluginSettings) (acc : List GoogleEvent),
    (checkLoop cache calId now days s acc).1 =
      if days.all (entryFresh cache calId now s) then
        some (acc ++ days.flatMap (bucketEvents cache calId))
      else none := by
  intro days
  induction days with
  | nil =>
    intro s acc
    simp [checkLoop]
  | cons d rest ih =>
    intro s acc
    simp only [checkLoop]
    cases hg : cacheGet cache (d, calId) with
    | none =>
      simp [List.all_cons, entryFresh, hg]
    | some entry =>
      simp only []
      rw [clampInterval_refreshInterval]
      by_cases hstale : entry.updated + effectiveInterval s < now
      · rw [if_pos hstale]
        have hef : entryFresh cache calId now s d = false := by
          unfold entryFresh
          rw [hg]
          simp [hstale]
        simp [List.all_cons, hef]
      · rw [if_neg hstale]
        rw [ih (clampInterval s) (acc ++ entry.events)]
        rw [entryFresh_congr cache calId now (clampInterval s) s
          (effectiveInterval_clampInterval s)]
        have hef : entryFresh cache calId now s d = true := by
          unfold entryFresh
          rw [hg]
          simp [hstale]
        have hbe : bucketEvents cache calId d = entry.events := by
          unfold bucketEvents
          rw [hg]
        simp [List.all_cons, hef, hbe, List.flatMap_cons, List.append_assoc]

/-- The cache-check loop leaves settings alone once clamping would be a
no-op. -/
theorem checkLoop_snd_stable (cache : EventCache) (calId : String) (now : Nat) :
    ∀ (days : List Nat) (s : PluginSettings) (acc : List GoogleEvent),
    clampInterval s = s → (checkLoop cache calId now days s acc).2 = s := by
  intro days
  induction days with
  | nil =>
    intro s acc _
    rfl
  | cons d rest ih =>
    intro s acc hs
    simp only [checkLoop]
    cases hg : cacheGet cache (d, calId) with
    | none => rfl
    | some entry =>
      simp only [hs]
      by_cases hstale : entry.updated + s.refreshInterval < now
      · rw [if_pos hstale]
      · rw [if_neg hstale]
        exact ih s (acc ++ entry.events) hs

/-- For a shared client under the interval floor, the loop over a
nonempty day list clamps the settings exactly when the first day is in
the cache. -/
theorem checkLoop_snd_clamped (cache : EventCache) (calId : String)
    (now : Nat) (d : Nat) (rest : List Nat) (s : PluginSettings)
    (acc : List GoogleEvent) (hu : s.useCustomClient = false)
    (hr : s.refreshInterval < 60) :
    (checkLoop cache calId now (d :: rest) s acc).2 =
      if (cacheGet cache (d, calId)).isSome then
        { s with refreshInterval := 60 }
      else s := by
  simp only [checkLoop]
  cases hg : cacheGet cache (d, calId) with
  | none => simp
  | some entry =>
    have hcl : clampInterval s = { s with refreshInterval := 60 } := by
      unfold clampInterval
      rw [if_pos ⟨hu, hr⟩]
    simp only [hcl, Option.isSome_some, if_pos]
    by_cases hstale : entry.updated + ({ s with refreshInterval := 60 } :
        PluginSettings).refreshInterval < now
    · rw [if_pos hstale]
    · rw [if_neg hstale]
      refine checkLoop_snd_stable cache calId now rest _ _ ?_
      unfold clampInterval
      rw [if_neg]
      intro hc
      have h60 : (60 : Nat) < 60 := by simpa using hc.2
      omega

/-- Membership through insertion. -/
theorem mem_insertByKey (a e : GoogleEvent) :
    ∀ l : List GoogleEvent, a ∈ insertByKey e l ↔ a = e ∨ a ∈ l := by
  intro l
  induction l with
  | nil => simp [insertByKey]
  | cons x xs ih =>
    simp only [insertByKey]
    split
    · rw [List.mem_cons, ih, List.mem_cons]
      tauto
    · rw [List.mem_cons]

/-- Inserting into a list sorted by the start key keeps it sorted. -/
theorem pairwise_insertByKey (e : GoogleEvent) :
    ∀ l : List GoogleEvent,
    l.Pairwise (fun a b => sortKeyCode a ≤ sortKeyCode b) →
    (insertByKey e l).Pairwise (fun a b => sortKeyCode a ≤ sortKeyCode b) := by
  intro l
  induction l with
  | nil =>
    intro _
    simp [insertByKey]
  | cons x xs ih =>
    intro hp
    rw [List.pairwise_cons] at hp
    obtain ⟨hx, hxs⟩ := hp
    simp only [insertByKey]
    split
    · rename_i hle
      rw [List.pairwise_cons]
      refine ⟨?_, ih hxs⟩
      intro y hy
      rcases (mem_insertByKey y e xs).1 hy with rfl | hy2
      · exact hle
      · exact hx y hy2
    · rename_i hgt
      rw [List.pairwise_cons]
      constructor
      · intro y hy
        rcases List.mem_cons.1 hy with rfl | hy2
        · omega
        · have := hx y hy2
          omega
      · rw [List.pairwise_cons]
        exact ⟨hx, hxs⟩

/-- The accumulator-based insertion sort returns a sorted list. -/
theorem pairwise_sortByStart_loop :
    ∀ (l acc : List GoogleEvent),
    acc.Pairwise (fun a b => sortKeyCode a ≤ sortKeyCode b) →
    (l.foldl (fun a e => insertByKey e a) acc).Pairwise
      (fun a b => sortKeyCode a ≤ sortKeyCode b) := by
  intro l
  induction l with
  | nil =>
    intro acc h
    exact h
  | cons x xs ih =>
    intro acc h
    rw [List.foldl_cons]
    exact ih _ (pairwise_insertByKey x acc h)

/-- sortByStart sorts ascending by the code sort key. -/
theorem sortByStart_pairwise (l : List GoogleEvent) :
    (sortByStart l).Pairwise (fun a b => sortKeyCode a ≤ sortKeyCode b) :=
  pairwise_sortByStart_loop l [] List.Pairwise.nil

/-- Members of the sorted list are members of the input. -/
theorem mem_of_sortByStart_loop :
    ∀ (l acc : List GoogleEvent) (a : GoogleEvent),
    a ∈ l.foldl (fun a e => insertByKey e a) acc → a ∈ acc ∨ a ∈ l := by
  intro l
  induction l with
  | nil =>
    intro acc a h
    exact Or.inl h
  | cons x xs ih =>
    intro acc a h
    rw [List.foldl_cons] at h
    rcases ih _ a h with h2 | h2
    · rcases (mem_insertByKey a x acc).1 h2 with rfl | h3
      · exact Or.inr (List.mem_cons_self _ _)
      · exact Or.inl h3
    · exact Or.inr (List.mem_cons_of_mem x h2)

/-- Members of sortByStart come from the input list. -/
theorem mem_of_sortByStart (l : List GoogleEvent) (a : GoogleEvent)
    (h : a ∈ sortByStart l) : a ∈ l := by
  rcases mem_of_sortByStart_loop l [] a h with h2 | h2
  · cases h2
  · exact h2

/-- Under the one-populated-start-field invariant, the contract key
coincides with the key the code sorts by. -/
theorem effectiveStartKey_eq_sortKeyCode (e : GoogleEvent)
    (h : startFieldsExclusive e) : effectiveStartKey e = sortKeyCode e := by
  unfold startFieldsExclusive at h
  unfold effectiveStartKey sortKeyCode
  cases hd : e.start.date with
  | none =>
    cases ht : e.start.dateTime with
    | none => rfl
    | some dt => rfl
  | some d =>
    cases ht : e.start.dateTime with
    | none => rfl
    | some dt =>
      rw [hd, ht] at h
      simp at h

/-- Reading a key after folding bucket writes over a day list: a written
key yields its bucket, others fall through to the old cache. -/
theorem foldl_cacheSet_get (calId : String) (val : Nat → EventCacheValue) :
    ∀ (ds : List Nat) (cache : EventCache) (k : CacheKey),
    cacheGet (ds.foldl (fun c d => cacheSet c (d, calId) (val d)) cache) k =
      if k.1 ∈ ds ∧ k.2 = calId then some (val k.1)
      else cacheGet cache k := by
  intro ds
  induction ds with
  | nil =>
    intro cache k
    simp
  | cons d rest ih =>
    intro cache k
    rw [List.foldl_cons, ih]
    rcases k with ⟨kd, kc⟩
    by_cases hm : kd ∈ rest ∧ kc = calId
    · rw [if_pos hm, if_pos ⟨List.mem_cons_of_mem d hm.1, hm.2⟩]
    · rw [if_neg hm]
      simp only [cacheSet, cacheGet]
      by_cases hd : (d, calId) = ((kd, kc) : CacheKey)
      · obtain ⟨h1, h2⟩ := Prod.mk.injEq .. ▸ hd
        rw [if_pos hd, if_pos ⟨by rw [← h1]; exact List.mem_cons_self d rest,
          h2.symm⟩, h1]
      · rw [if_neg hd, if_neg]
        intro hc
        rcases List.mem_cons.1 hc.1 with rfl | h3
        · exact hd (by rw [hc.2])
        · exact hm ⟨h3, hc.2⟩

/-- Reading the cache after population: days of the range hold the
events grouped under them, all other keys are untouched. -/
theorem populateCache_get (cache : EventCache) (calId : String)
    (sD eD : Nat) (l : List GoogleEvent) (now : Nat) (d : Nat) (cid : String) :
    cacheGet (populateCache cache calId sD eD l now) (d, cid) =
      if d ∈ daysRange sD eD ∧ cid = calId then
        some ⟨l.filter (fun e => startDayKey e == d), now⟩
      else cacheGet cache (d, cid) := by
  unfold populateCache
  exact foldl_cacheSet_get calId
    (fun d2 => ⟨l.filter (fun e => startDayKey e == d2), now⟩)
    (daysRange sD eD) cache (d, cid)

/-- Cloning keeps the status field. -/
theorem cloneList_status (e c : GoogleEvent) (h : c ∈ cloneList e) :
    c.status = e.status := by
  unfold cloneList at h
  rcases hs : e.start.dateTime with _ | s <;>
      rcases hen : e.end_.dateTime with _ | en <;>
      simp only [hs, hen, List.mem_map, List.not_mem_nil] at h
  obtain ⟨i, _, rfl⟩ := h
  rfl

/-- The superseded original keeps the status field. -/
theorem supersededOriginal_status (e : GoogleEvent) :
    (supersededOriginal e).status = e.status := by
  unfold supersededOriginal
  rcases hs : e.start.dateTime with _ | s <;>
      rcases hen : e.end_.dateTime with _ | en <;>
      simp only [hs, hen]

/-- Every event the expansion emits carries the status of an input. -/
theorem resolveMultiDay_status (l : List GoogleEvent) (a b : Option Nat)
    (e2 : GoogleEvent) (h : e2 ∈ resolveMultiDayEventsHelper l a b) :
    ∃ e ∈ l, e2.status = e.status := by
  unfold resolveMultiDayEventsHelper at h
  rw [List.mem_append] at h
  rcases h with h | h
  · rw [List.mem_map] at h
    obtain ⟨e, hel, rfl⟩ := h
    refine ⟨e, hel, ?_⟩
    by_cases hc : isMultiDayCandidate e = true
    · rw [if_pos hc]
      exact supersededOriginal_status e
    · rw [if_neg hc]
  · rw [List.mem_flatMap] at h
    obtain ⟨e, hel, hm⟩ := h
    refine ⟨e, hel, ?_⟩
    by_cases hc : isMultiDayCandidate e = true
    · rw [if_pos hc] at hm
      exact cloneList_status e e2 (List.mem_of_mem_filter hm)
    · rw [if_neg hc] at hm
      cases hm

/-- A list without cancelled events stays without them after a filter. -/
theorem cleanEvents_filter (l : List GoogleEvent) (p : GoogleEvent → Bool)
    (h : cleanEvents l) : cleanEvents (l.filter p) := by
  intro e he
  exact h e (List.mem_of_mem_filter he)

/-- Concatenation of clean lists is clean. -/
theorem cleanEvents_append (l1 l2 : List GoogleEvent)
    (h1 : cleanEvents l1) (h2 : cleanEvents l2) : cleanEvents (l1 ++ l2) := by
  intro e he
  rcases List.mem_append.1 he with h | h
  · exact h1 e h
  · exact h2 e h

/-- The expansion of a clean list is clean. -/
theorem resolveMultiDay_clean (l : List GoogleEvent) (a b : Option Nat)
    (hl : cleanEvents l) : cleanEvents (resolveMultiDayEventsHelper l a b) := by
  intro e2 h
  obtain ⟨e, hel, hst⟩ := resolveMultiDay_status l a b e2 h
  rw [hst]
  exact hl e hel

/-- A successful pagination loop only returns uncancelled events. -/
theorem requestLoop_clean (calId : String) :
    ∀ (pages : List (Option GoogleEventList)) (acc : List GoogleEvent)
      (ns : List String), cleanEvents acc →
    ∀ l, (requestLoop calId pages acc ns).1 = some l → cleanEvents l := by
  intro pages
  induction pages with
  | nil =>
    intro acc ns hacc l h
    simp only [requestLoop] at h
    rw [Option.some.injEq] at h
    subst h
    exact hacc
  | cons p rest ih =>
    intro acc ns hacc l h
    cases p with
    | none =>
      simp only [requestLoop] at h
      cases h
    | some page =>
      simp only [requestLoop] at h
      have hacc2 : cleanEvents (acc ++ (page.items.filter
          (fun e => e.status != "cancelled")).map
          (fun e => { e with parent := some calId })) := by
        refine cleanEvents_append _ _ hacc ?_
        intro e2 he2
        rw [List.mem_map] at he2
        obtain ⟨e0, he0, rfl⟩ := he2
        have hp := List.of_mem_filter he0
        simp only [bne_iff_ne, ne_eq] at hp
        exact hp
      split at h
      · exact ih _ _ hacc2 l h
      · rw [Option.some.injEq] at h
        subst h
        exact hacc2

/-- A successful fetch only returns uncancelled events. -/
theorem requestEventsFromApi_clean (loggedIn : Bool) (calId : String)
    (pages : List (Option GoogleEventList)) (l : List GoogleEvent)
    (h : (requestEventsFromApi loggedIn calId pages).1 = some l) :
    cleanEvents l := by
  unfold requestEventsFromApi at h
  cases loggedIn with
  | false =>
    simp only [Bool.false_eq_true, if_false] at h
    rw [Option.some.injEq] at h
    subst h
    intro e he
    cases he
  | true =>
    simp only [if_true] at h
    exact requestLoop_clean calId pages [] [] (fun e he => absurd he
      (List.not_mem_nil e)) l h

/-- A cache hit over a clean cache yields a clean list. -/
theorem checkForCachedEvents_clean (s : PluginSettings) (cache : EventCache)
    (calId : String) (sD eD now : Nat) (evs : List GoogleEvent)
    (hclean : cleanCache cache)
    (h : (checkForCachedEvents s cache calId sD eD now).1 = some evs) :
    cleanEvents evs := by
  rw [checkForCachedEvents, checkLoop_fst] at h
  split at h
  · rw [Option.some.injEq] at h
    subst h
    intro e he
    rw [List.nil_append, List.mem_flatMap] at he
    obtain ⟨d, _, hbe⟩ := he
    unfold bucketEvents at hbe
    cases hg : cacheGet cache (d, calId) with
    | none =>
      rw [hg] at hbe
      cases hbe
    | some entry =>
      rw [hg] at hbe
      exact hclean (d, calId) entry hg e hbe
  · cases h

/-- Populating with a clean list keeps the cache clean. -/
theorem populateCache_clean (cache : EventCache) (calId : String)
    (sD eD : Nat) (l : List GoogleEvent) (now : Nat)
    (hl : cleanEvents l) (hclean : cleanCache cache) :
    cleanCache (populateCache cache calId sD eD l now) := by
  intro k v h
  rcases k with ⟨kd, kc⟩
  rw [populateCache_get] at h
  split at h
  · rw [Option.some.injEq] at h
    subst h
    intro e he
    exact hl e (List.mem_of_mem_filter he)
  · exact hclean (kd, kc) v h

/-- One calendar step: over a clean cache the returned list (cached or
fresh) is clean and the cache stays clean. -/
theorem googleListEventsByCalendar_clean (loggedIn : Bool)
    (pages : List (Option GoogleEventList)) (cal : GoogleCalendar)
    (sD eD : Nat) (incC excC : List String) (st : PState)
    (hclean : cleanCache st.cache) :
    (∀ evs, (googleListEventsByCalendar loggedIn pages cal sD eD incC excC st).1 =
      some evs → cleanEvents evs) ∧
    cleanCache (googleListEventsByCalendar loggedIn pages cal sD eD incC excC st).2.cache := by
  simp only [googleListEventsByCalendar]
  split
  · rename_i evs0 heq
    constructor
    · intro evs h
      simp only [Option.some.injEq] at h
      subst h
      exact cleanEvents_filter _ _
        (checkForCachedEvents_clean st.settings st.cache cal.id sD eD st.now
          evs0 hclean heq)
    · exact hclean
  · split
    · constructor
      · intro evs h
        cases h
      · exact hclean
    · rename_i totalEventList heq2
      have htot : cleanEvents totalEventList :=
        requestEventsFromApi_clean loggedIn cal.id pages totalEventList heq2
      have hexp : cleanEvents (resolveMultiDayEventsHelper totalEventList
          (some sD) (some eD)) := resolveMultiDay_clean _ _ _ htot
      constructor
      · intro evs h
        simp only [Option.some.injEq] at h
        subst h
        exact cleanEvents_filter _ _ hexp
      · exact populateCache_clean _ _ _ _ _ _ hexp hclean

/-- The calendar loop keeps cache and accumulated output clean. -/
theorem listEventsLoop_clean (loggedIn : Bool)
    (transport : String → List (Option GoogleEventList))
    (sD eD : Nat) (incC excC : List String) :
    ∀ (cals : List GoogleCalendar) (st : PState) (acc : List GoogleEvent),
    cleanCache st.cache → cleanEvents acc →
    (∀ evs, (listEventsLoop loggedIn transport sD eD incC excC cals st acc).1 =
      some evs → cleanEvents evs) ∧
    cleanCache (listEventsLoop loggedIn transport sD eD incC excC cals st acc).2.cache := by
  intro cals
  induction cals with
  | nil =>
    intro st acc hc ha
    constructor
    · intro evs h
      simp only [listEventsLoop, Option.some.injEq] at h
      subst h
      exact ha
    · exact hc
  | cons cal rest ih =>
    intro st acc hc ha
    obtain ⟨h1, h2⟩ := googleListEventsByCalendar_clean loggedIn
      (transport cal.id) cal sD eD incC excC st hc
    simp only [listEventsLoop]
    cases hbc : googleListEventsByCalendar loggedIn (transport cal.id) cal
      sD eD incC excC st with
    | mk r st2 =>
      rw [hbc] at h1 h2
      cases r with
      | none =>
        constructor
        · intro evs h
          cases h
        · exact h2
      | some evs0 =>
        exact ih st2 (acc ++ evs0) h2
          (cleanEvents_append acc evs0 ha (h1 evs0 rfl))

/-- C8: no cancelled event ever appears in a list returned by
googleListEvents, cache-served or fresh, and the cache never holds one:
cancelled events are dropped during page processing, expansion keeps
statuses, and population writes only expanded events. -/
theorem googleListEvents_no_cancelled (loggedIn : Bool)
    (calendars : List GoogleCalendar) (allColorNames : List String)
    (transport : String → List (Option GoogleEventList))
    (includeL excludeL : List String) (sD eD : Nat) (st : PState)
    (hclean : cleanCache st.cache) :
    (∀ evs, (googleListEvents loggedIn calendars allColorNames transport
        includeL excludeL sD eD st).1 = some evs → cleanEvents evs) ∧
    cleanCache (googleListEvents loggedIn calendars allColorNames transport
      includeL excludeL sD eD st).2.cache := by
  obtain ⟨h1, h2⟩ := listEventsLoop_clean loggedIn transport sD eD
    (includeL.partition (fun x => !(allColorNames.contains x))).2
    (excludeL.partition (fun x => !(allColorNames.contains x))).2
    (selectCalendars calendars
      (includeL.partition (fun x => !(allColorNames.contains x))).1
      (excludeL.partition (fun x => !(allColorNames.contains x))).1)
    st [] hclean (fun e he => absurd he (List.not_mem_nil e))
  constructor
  · intro evs h
    have hfst : (googleListEvents loggedIn calendars allColorNames transport
        includeL excludeL sD eD st).1 =
        ((listEventsLoop loggedIn transport sD eD
          (includeL.partition (fun x => !(allColorNames.contains x))).2
          (excludeL.partition (fun x => !(allColorNames.contains x))).2
          (selectCalendars calendars
            (includeL.partition (fun x => !(allColorNames.contains x))).1
            (excludeL.partition (fun x => !(allColorNames.contains x))).1)
          st []).1).map sortByStart := rfl
    rw [hfst, Option.map_eq_some'] at h
    obtain ⟨l0, hl0, rfl⟩ := h
    intro e he
    exact h1 l0 hl0 e (mem_of_sortByStart l0 e he)
  · exact h2

/-- C9: a list returned by googleListEvents is sorted ascending by the
effective start instant (date-time when present, otherwise the all-day
date read as midnight), globally across all contributing calendars,
whenever the returned events obey the one-populated-start-field data
invariant. -/
theorem googleListEvents_sorted (loggedIn : Bool)
    (calendars : List GoogleCalendar) (allColorNames : List String)
    (transport : String → List (Option GoogleEventList))
    (includeL excludeL : List String) (sD eD : Nat) (st : PState)
    (evs : List GoogleEvent)
    (hres : (googleListEvents loggedIn calendars allColorNames transport
      includeL excludeL sD eD st).1 = some evs)
    (hone : ∀ e ∈ evs, startFieldsExclusive e) :
    evs.Pairwise (fun a b => effectiveStartKey a ≤ effectiveStartKey b) := by
  have hfst : (googleListEvents loggedIn calendars allColorNames transport
      includeL excludeL sD eD st).1 =
      ((listEventsLoop loggedIn transport sD eD
        (includeL.partition (fun x => !(allColorNames.contains x))).2
        (excludeL.partition (fun x => !(allColorNames.contains x))).2
        (selectCalendars calendars
          (includeL.partition (fun x => !(allColorNames.contains x))).1
          (excludeL.partition (fun x => !(allColorNames.contains x))).1)
        st []).1).map sortByStart := rfl
  rw [hfst, Option.map_eq_some'] at hres
  obtain ⟨l0, _, rfl⟩ := hres
  have hp := sortByStart_pairwise l0
  exact List.Pairwise.imp_of_mem
    (fun ha hb hr => by
      rw [effectiveStartKey_eq_sortKeyCode _ (hone _ ha),
        effectiveStartKey_eq_sortKeyCode _ (hone _ hb)]
      exact hr) hp

/-- C9 witness: the output of a concrete run is sorted by the effective
start instant. -/
theorem googleListEvents_sorted_witness :
    ((googleListEvents true [calOne] [] tripTransport [] [] 0 4
      initialState).1.getD []).Pairwise
      (fun a b => effectiveStartKey a ≤ effectiveStartKey b) :=
  googleListEvents_sorted true [calOne] [] tripTransport [] [] 0 4
    initialState
    ((googleListEvents true [calOne] [] tripTransport [] [] 0 4
      initialState).1.getD [])
    (by decide) (by decide)

/-- C7: the cache lookup returns none exactly when some day of the
inclusive range is absent or its entry is older than the effective
freshness window; otherwise it returns the buckets concatenated in
ascending day order. -/
theorem checkForCachedEvents_characterization (s : PluginSettings)
    (cache : EventCache) (calId : String) (startDay endDay now : Nat) :
    (checkForCachedEvents s cache calId startDay endDay now).1 =
      if (daysRange startDay endDay).all (entryFresh cache calId now s) then
        some ((daysRange startDay endDay).flatMap (bucketEvents cache calId))
      else none := by
  rw [checkForCachedEvents, checkLoop_fst]
  split
  · rw [List.nil_append]
  · rfl

/-- C10: with the shared (non-custom) client and a configured refresh
interval below 60 seconds, the cache lookup persistently rewrites the
stored interval to 60 exactly when the first day of the range is
cached (leaving every other settings field unchanged), and any settings
mutation implies some day of the range is present in the cache. -/
theorem checkForCachedEvents_clamps_refreshInterval (s : PluginSettings)
    (cache : EventCache) (calId : String) (startDay endDay now : Nat)
    (hu : s.useCustomClient = false) (hr : s.refreshInterval < 60)
    (hle : startDay ≤ endDay) :
    ((cacheGet cache (startDay, calId)).isSome = true →
      (checkForCachedEvents s cache calId startDay endDay now).2 =
        { s with refreshInterval := 60 }) ∧
    ((cacheGet cache (startDay, calId)).isSome = false →
      (checkForCachedEvents s cache calId startDay endDay now).2 = s) ∧
    ((checkForCachedEvents s cache calId startDay endDay now).2 ≠ s →
      ∃ d ∈ daysRange startDay endDay,
        (cacheGet cache (d, calId)).isSome = true) := by
  have hsnd : (checkForCachedEvents s cache calId startDay endDay now).2 =
      if (cacheGet cache (startDay, calId)).isSome then
        { s with refreshInterval := 60 }
      else s := by
    rw [checkForCachedEvents, daysRange_cons startDay endDay hle]
    exact checkLoop_snd_clamped cache calId now startDay
      (daysRange (startDay + 1) endDay) s [] hu hr
  refine ⟨?_, ?_, ?_⟩
  · intro hp
    rw [hsnd, if_pos hp]
  · intro hp
    rw [hsnd]
    rw [hp]
    simp
  · intro hne
    by_cases hp : (cacheGet cache (startDay, calId)).isSome = true
    · refine ⟨startDay, ?_, hp⟩
      rw [mem_daysRange]
      exact ⟨Nat.le_refl startDay, hle⟩
    · rw [hsnd, if_neg] at hne
      · exact absurd rfl hne
      · simpa using hp

/-- C10 witness: a concrete lookup on a shared client with a 30 second
interval rewrites the interval to 60. -/
theorem checkForCachedEvents_clamps_refreshInterval_witness :
    (checkForCachedEvents clampSettings clampCache "c" 0 0 5).2 =
      { clampSettings with refreshInterval := 60 } :=
  (checkForCachedEvents_clamps_refreshInterval clampSettings clampCache
    "c" 0 0 5 (by decide) (by decide) (by decide)).1 (by decide)

/-- C6 (amended): a multi-day event with date-time endpoints spanning
from day s to a later day en yields, before range filtering, exactly
en - s + 1 clones tagged multiDay; the i-th clone (counting from 1)
carries the title suffix (Day i/total), keeps the original end, and
starts at the original instant for i = 1 but at minute 0 (midnight) of
the following days for i > 1; an event whose endpoints share a day (or
lacks a date-time endpoint) passes through the expansion untouched. -/
theorem cloneList_structure :
    (∀ (e : GoogleEvent) (s en : DT), e.start.dateTime = some s →
      e.end_.dateTime = some en → s.day < en.day →
      (cloneList e).length = en.day - s.day + 1 ∧
      (∀ i, i < en.day - s.day + 1 →
        (cloneList e)[i]? = some
          { e with
            summary := e.summary ++ " (Day " ++ toString (i + 1) ++ "/" ++
              toString ((en.day : Int) - (s.day : Int) + 1) ++ ")"
            eventType := some "multiDay"
            start := { e.start with
              dateTime := some ⟨s.day + i, if i = 0 then s.minute else 0⟩ } })) ∧
    (∀ (e : GoogleEvent) (a b : Option Nat), isMultiDayCandidate e = false →
      resolveMultiDayEventsHelper [e] a b = [e]) := by
  constructor
  · intro e s en hs hen _
    constructor
    · simp [cloneList, hs, hen]
    · intro i hi
      simp only [cloneList, hs, hen]
      rw [List.getElem?_map, List.getElem?_range hi]
      by_cases hi0 : i = 0
      · subst hi0
        simp only [Option.map_some', Option.some.injEq, if_true]
        have hstart : EventTime.mk e.start.date
            (some (⟨s.day + 0, s.minute⟩ : DT)) = e.start := by
          have hdt : (⟨s.day + 0, s.minute⟩ : DT) = s := by
            cases s
            simp
          rw [hdt, ← hs]
        rw [hstart]
      · simp only [Option.map_some', if_neg hi0, Option.some.injEq]
  · intro e a b h
    simp [resolveMultiDayEventsHelper, h]

/-- C6 witness: the two-day trip event yields two clones. -/
theorem cloneList_structure_witness : (cloneList tripEvent).length = 2 :=
  (cloneList_structure.1 tripEvent ⟨0, 840⟩ ⟨1, 600⟩ rfl rfl (by decide)).1

/-- C6 counterexample: for the trip starting day 0 at 14:00, the second
clone starts at midnight of day 1, not at 14:00 of day 1 as the claim
(start advanced by whole days from the original start) would require. -/
theorem cloneList_start_not_advanced :
    (cloneList tripEvent).map (fun c => c.start.dateTime) =
      [some ⟨0, 840⟩, some ⟨1, 0⟩] ∧
    (cloneList tripEvent).map (fun c => c.start.dateTime) ≠
      [some ⟨0, 840⟩, some ⟨1, 840⟩] := by
  decide

/-- A multi-day original is tagged delete after the in-place mutation. -/
theorem supersededOriginal_eventType (e : GoogleEvent)
    (h : isMultiDayCandidate e = true) :
    (supersededOriginal e).eventType = some "delete" := by
  unfold isMultiDayCandidate at h
  unfold supersededOriginal
  rcases hs : e.start.dateTime with _ | s <;>
      rcases hen : e.end_.dateTime with _ | en <;>
      simp only [hs, hen] at h ⊢ <;>
      simp at h

/-- Every clone has a date-time start. -/
theorem cloneList_dateTime (e c : GoogleEvent) (h : c ∈ cloneList e) :
    ∃ dt, c.start.dateTime = some dt := by
  unfold cloneList at h
  rcases hs : e.start.dateTime with _ | s <;>
      rcases hen : e.end_.dateTime with _ | en <;>
      simp only [hs, hen, List.mem_map, List.not_mem_nil] at h
  obtain ⟨i, _, rfl⟩ := h
  by_cases hi0 : i = 0
  · subst hi0
    exact ⟨s, by simp [hs]⟩
  · exact ⟨⟨s.day + i, 0⟩, by simp [hi0]⟩

/-- What passing the clone range filter means for the start day. -/
theorem rangeKeep_bounds (sD eD : Nat) (c : GoogleEvent) (dt : DT)
    (hdt : c.start.dateTime = some dt)
    (h : rangeKeep (some sD) (some eD) c = true) :
    sD ≤ dt.day ∧ dt.day < eD := by
  unfold rangeKeep at h
  rw [hdt] at h
  simp only [Bool.and_eq_true, decide_eq_true_eq] at h
  exact h

/-- C4 (amended): for a fresh fetch over an inclusive day range, every
multiDay occurrence the expansion keeps starts inside the half-open
window from the range start day up to but excluding the range end day;
population then writes exactly one bucket per day of the requested
range, each holding the already range-filtered occurrences grouped under
that day, and touches no key outside the range — the days of a
multi-day span outside the requested range are never cached. -/
theorem expansion_rangeFilter_and_population (l : List GoogleEvent)
    (sD eD : Nat) (cache : EventCache) (calId : String) (now : Nat)
    (htags : ∀ e ∈ l, e.eventType = none) :
    (∀ e ∈ resolveMultiDayEventsHelper l (some sD) (some eD),
      e.eventType = some "multiDay" →
      ∃ dt, e.start.dateTime = some dt ∧ sD ≤ dt.day ∧ dt.day < eD) ∧
    (∀ d : Nat, d < sD ∨ eD < d →
      cacheGet (populateCache cache calId sD eD
        (resolveMultiDayEventsHelper l (some sD) (some eD)) now) (d, calId) =
      cacheGet cache (d, calId)) ∧
    (∀ d : Nat, sD ≤ d → d ≤ eD →
      cacheGet (populateCache cache calId sD eD
        (resolveMultiDayEventsHelper l (some sD) (some eD)) now) (d, calId) =
      some ⟨(resolveMultiDayEventsHelper l (some sD) (some eD)).filter
        (fun e => startDayKey e == d), now⟩) := by
  refine ⟨?_, ?_, ?_⟩
  · intro e he htype
    unfold resolveMultiDayEventsHelper at he
    rw [List.mem_append] at he
    rcases he with he | he
    · rw [List.mem_map] at he
      obtain ⟨e0, he0, rfl⟩ := he
      by_cases hc : isMultiDayCandidate e0 = true
      · rw [if_pos hc, supersededOriginal_eventType e0 hc,
          Option.some.injEq] at htype
        exact absurd htype (by decide)
      · rw [if_neg hc, htags e0 he0] at htype
        cases htype
    · rw [List.mem_flatMap] at he
      obtain ⟨e0, he0, hm⟩ := he
      by_cases hc : isMultiDayCandidate e0 = true
      · rw [if_pos hc, List.mem_filter] at hm
        obtain ⟨hmc, hrk⟩ := hm
        obtain ⟨dt, hdt⟩ := cloneList_dateTime e0 e hmc
        obtain ⟨h1, h2⟩ := rangeKeep_bounds sD eD e dt hdt hrk
        exact ⟨dt, hdt, h1, h2⟩
      · rw [if_neg hc] at hm
        cases hm
  · intro d hd
    rw [populateCache_get, if_neg]
    intro hcon
    obtain ⟨hm, _⟩ := hcon
    rw [mem_daysRange] at hm
    omega
  · intro d h1 h2
    rw [populateCache_get, if_pos]
    exact ⟨(mem_daysRange d sD eD).2 ⟨h1, h2⟩, rfl⟩

/-- C4 witness: population over days 0..1 leaves the key of day 5
untouched. -/
theorem expansion_rangeFilter_and_population_witness :
    cacheGet (populateCache [] "cal1" 0 1
      (resolveMultiDayEventsHelper [longEvent] (some 0) (some 1)) 7)
      (5, "cal1") = none :=
  (expansion_rangeFilter_and_population [longEvent] 0 1 [] "cal1" 7
    (by decide)).2.1 5 (by decide)

/-- C4 counterexample: after fetching days 0..1 of the event spanning
days 0..3, day 3 of the span has no cache bucket at all and the day 1
bucket is empty — the cache is not populated from the full original
span, because the clones are range-filtered before population. -/
theorem populateCache_not_full_span :
    longEvent.end_.dateTime = some ⟨3, 600⟩ ∧
    cacheGet longAfter.cache (3, "cal1") = none ∧
    (cacheGet longAfter.cache (1, "cal1")).map (fun v => v.events) =
      some [] := by
  decide

/-- C1: the delete-tagged superseded original of a multi-day event is
absent from the fresh first call, but the identical second call, served
from the day cache, returns it: the cached path filters only by color
and the mutated original was cached under the day after its span. -/
theorem googleListEvents_cached_returns_delete_tagged :
    (listCallOne.1.getD []).all
      (fun e => !(e.eventType == some "delete")) = true ∧
    (listCallTwo.1.getD []).any
      (fun e => e.eventType == some "delete") = true := by
  decide

/-- C2: when the transport yields no result for the first page, the
notice is created, but instead of returning the accumulated events the
fetch aborts with a thrown error (none), which propagates through
googleListEvents to its caller. -/
theorem requestEventsFromApi_failure_raises :
    requestEventsFromApi true "cal1" [none] =
      (none, ["Could not list Google Events"]) ∧
    (googleListEvents true [calOne] [] (fun _ => [none]) [] [] 0 0
      initialState).1 = none := by
  decide

/-- C3: a second call with identical query parameters, made while every
cache entry written by the first call is still fresh, does not return
the first call output: the cache-served list additionally contains the
delete-tagged original. -/
theorem repeatedCall_output_differs :
    listCallOne.1.isSome = true ∧ listCallTwo.1.isSome = true ∧
    listCallOne.1 ≠ listCallTwo.1 := by
  decide

/-- C5: the spec example (range days 0..2, one event from day 0 14:00 to
day 2 10:00) returns only the first two of the three labeled
occurrences: the clone on the inclusive range end day is dropped by the
on-or-after range-end filter. -/
theorem specExample_missing_last_day :
    (googleListEvents true [calOne] [] retreatTransport [] [] 0 2
      initialState).1.isSome = true ∧
    ((googleListEvents true [calOne] [] retreatTransport [] [] 0 2
      initialState).1.getD []).map (fun e => e.summary) =
      ["Retreat (Day 1/3)", "Retreat (Day 2/3)"] ∧
    ((googleListEvents true [calOne] [] retreatTransport [] [] 0 2
      initialState).1.getD []).length = 2 := by
  decide

/-- C8 witness: a concrete run over a page holding a cancelled and a
kept event returns no cancelled event. -/
theorem googleListEvents_no_cancelled_witness :
    cleanEvents ((googleListEvents true [calOne] [] mixedTransport [] []
      0 0 initialState).1.getD []) :=
  (googleListEvents_no_cancelled true [calOne] [] mixedTransport [] []
    0 0 initialState (fun k v h => nomatch h)).1
    ((googleListEvents true [calOne] [] mixedTransport [] []
      0 0 initialState).1.getD []) (by decide)
